import Mathlib

/-!
Verification of the LightNovelScraper repository: a shallow embedding of the
content-classification, formatting, rate-limiting, fetch-retry and input
validation logic of `LightNovelScraper.py` and `lightnovelScraper_Simple.py`.

HTML fragments are modelled as a small element tree (`Html`); BeautifulSoup
`str(...)` corresponds to `htmlToString`, `.text` to `textContent`, and the
`BeautifulSoup(str(p))` re-parse used by the formatter is modelled as the
identity on well-formed trees.
-/

set_option maxRecDepth 4000

namespace Scraper

/-- An HTML node: a text node or an element with a tag, attributes, and
children.  Models the BeautifulSoup element trees manipulated by the code. -/
inductive Html where
  | text : String → Html
  | elem : String → List (String × String) → List Html → Html

/-- Serialization of an attribute list, as BeautifulSoup renders it:
a space, the key, `="`, the value, `"`. -/
def attrsToString (attrs : List (String × String)) : String :=
  attrs.foldl (fun acc kv => acc ++ " " ++ kv.1 ++ "=\"" ++ kv.2 ++ "\"") ""

mutual

/-- `str(node)` in BeautifulSoup: serialize a node back to markup. -/
def htmlToString : Html → String
  | .text s => s
  | .elem tag attrs children =>
      "<" ++ tag ++ attrsToString attrs ++ ">" ++ htmlListToString children ++ "</" ++ tag ++ ">"

/-- Serialization of a list of sibling nodes. -/
def htmlListToString : List Html → String
  | [] => ""
  | h :: t => htmlToString h ++ htmlListToString t

end

mutual

/-- `node.text` in BeautifulSoup: concatenation of all descendant text. -/
def textContent : Html → String
  | .text s => s
  | .elem _ _ children => textContentList children

/-- Concatenated text of a list of sibling nodes. -/
def textContentList : List Html → String
  | [] => ""
  | h :: t => textContent h ++ textContentList t

end

mutual

/-- `node.find_all(tags)` restricted to a node: collect the node itself (when
its tag is listed) and all matching descendants, in document order. -/
def findAllTags (tags : List String) : Html → List Html
  | .text _ => []
  | .elem tag attrs children =>
      if tags.contains tag then
        Html.elem tag attrs children :: findAllTagsList tags children
      else
        findAllTagsList tags children

/-- `find_all` over a list of sibling nodes. -/
def findAllTagsList (tags : List String) : List Html → List Html
  | [] => []
  | h :: t => findAllTags tags h ++ findAllTagsList tags t

end

/-- `p.find_all(tags)`: matching strict descendants of `p`, document order. -/
def findDescendants (tags : List String) (p : Html) : List Html :=
  match p with
  | .text _ => []
  | .elem _ _ children => findAllTagsList tags children

/-- Substring test on character lists (Python's `pat in s`). -/
def listContainsSub (pat : List Char) : List Char → Bool
  | [] => pat.isEmpty
  | c :: rest => pat.isPrefixOf (c :: rest) || listContainsSub pat rest

/-- Python's `pat in s` on strings. -/
def strContains (s pat : String) : Bool :=
  listContainsSub pat.data s.data

/-- Python's `s.startswith(pat)`. -/
def strStartsWith (s pat : String) : Bool :=
  pat.data.isPrefixOf s.data

/-- Python's `c in s` for a single character. -/
def strHasChar (s : String) (c : Char) : Bool :=
  s.data.contains c

/-- Python's `s.strip()` on a character list: drop whitespace from both
ends. -/
def trimChars (cs : List Char) : List Char :=
  ((cs.dropWhile Char.isWhitespace).reverse.dropWhile Char.isWhitespace).reverse

/-- Python's `s.strip()`. -/
def trimStr (s : String) : String :=
  String.mk (trimChars s.data)

/-- Python's `s.lower()` (ASCII case mapping). -/
def lowerStr (s : String) : String :=
  String.mk (s.data.map Char.toLower)

/-- Python's `s.split('.')[0]`: the prefix of `s` before the first dot. -/
def keyBeforeDot (s : String) : String :=
  String.mk (s.data.takeWhile (fun c => c ≠ '.'))

/-- The apostrophe character, used in the note-phrase tables. -/
def apos : String := String.singleton (Char.ofNat 39)

/-! ## RateLimiter (`LightNovelScraper.py`, class `RateLimiter`)

Real time is modelled with rational timestamps; `wait` is modelled by the
duration it sleeps (`waitTime`) plus the state update (`afterWait`). -/

/-- State of `RateLimiter`: configured rate, derived `min_interval = 1/rate`,
the `deque(maxlen=10)` of recent request times, and the consecutive-failure
counter. -/
structure RateLimiter where
  rate : ℚ
  minInterval : ℚ
  lastRequestTimes : List ℚ
  failedAttempts : ℕ

/-- `RateLimiter.__init__(requests_per_second)`. -/
def RateLimiter.init (requestsPerSecond : ℚ) : RateLimiter :=
  ⟨requestsPerSecond, 1 / requestsPerSecond, [], 0⟩

/-- `deque(maxlen=10)` append: push at the right, dropping from the left
when the deque exceeds ten entries. -/
def dequePush (xs : List ℚ) (x : ℚ) : List ℚ :=
  let ys := xs ++ [x]
  if ys.length > 10 then ys.drop (ys.length - 10) else ys

/-- The duration slept by `RateLimiter.wait()` when called at time `now`:
`max(0, min_interval - elapsed)` against the last recorded request (zero when
none is recorded), plus `min(300, 2**failed_attempts - 1)` when the
consecutive-failure counter is positive. -/
def RateLimiter.waitTime (rl : RateLimiter) (now : ℚ) : ℚ :=
  let base : ℚ :=
    match rl.lastRequestTimes.getLast? with
    | some t => max 0 (rl.minInterval - (now - t))
    | none => 0
  if rl.failedAttempts > 0 then base + min 300 ((2 : ℚ) ^ rl.failedAttempts - 1)
  else base

/-- The state update performed by `RateLimiter.wait()`: the call time is
appended to the request deque. -/
def RateLimiter.afterWait (rl : RateLimiter) (now : ℚ) : RateLimiter :=
  { rl with lastRequestTimes := dequePush rl.lastRequestTimes now }

/-- `RateLimiter.record_failure()`. -/
def RateLimiter.recordFailure (rl : RateLimiter) : RateLimiter :=
  { rl with failedAttempts := rl.failedAttempts + 1 }

/-- `RateLimiter.record_success()`. -/
def RateLimiter.recordSuccess (rl : RateLimiter) : RateLimiter :=
  { rl with failedAttempts := 0 }

/-! ## Pattern-based classifier (`LightNovelScraper.py`, `_process_content`)

The classifier is modelled on the paragraph elements found by
`content_div.find_all('p')` after `_clean_html_content` (whose ad-stripping is
uniform preprocessing that produces that list); narrative paragraphs and note
paragraphs are kept as `Html` nodes, with `str(p)` (`htmlToString`) applied at
rendering time. -/

/-- Nonempty all-digit character list: the regex `\d+` anchored both ends. -/
def isDigits1 (cs : List Char) : Bool :=
  !cs.isEmpty && cs.all Char.isDigit

/-- The regex `^chapter\s+\d+$`: literal `chapter`, one or more whitespace
characters, then digits. -/
def chapterNumPat (cs : List Char) : Bool :=
  "chapter".toList.isPrefixOf cs &&
    (let rest := cs.drop 7
     !(rest.takeWhile Char.isWhitespace).isEmpty &&
       isDigits1 (rest.dropWhile Char.isWhitespace))

/-- The regex `^\d+\.?$`: digits with an optional trailing dot. -/
def digitsOptDot (cs : List Char) : Bool :=
  isDigits1 cs || (cs.getLast? == some '.' && isDigits1 cs.dropLast)

/-- `_is_chapter_number`: the stripped text, lowercased, fully matches one of
`^\d+$`, `^chapter\s+\d+$`, `^\d+\.?$`. -/
def isChapterNumber (text : String) : Bool :=
  let low := lowerStr (trimStr text)
  isDigits1 low.data || chapterNumPat low.data || digitsOptDot low.data

/-- The note phrases checked against `strong`/`b` child text
in `_is_note_or_message`. -/
def strongNotePhrases : List String :=
  ["translator" ++ apos ++ "s note", "translator note", "chapter note", "t/n", "note"]

/-- The note phrases checked against the paragraph's own lowercased text
in `_is_note_or_message`. -/
def textNotePhrases : List String :=
  ["t/n:", "tn:", "t/l:", "tl:",
   "translator" ++ apos ++ "s note:", "translator note:",
   "chapter note:", "chapter note by",
   "thanks for playing", "as always"]

/-- `_is_note_or_message(text, p)`: some `strong`/`b` descendant's stripped
lowercased text contains a strong-note phrase, or the paragraph text
lowercased contains a text-note phrase. -/
def isNoteOrMessage (text : String) (p : Html) : Bool :=
  (findDescendants ["strong", "b"] p).any
      (fun st => strongNotePhrases.any
        (fun ph => strContains (lowerStr (trimStr (textContent st))) ph)) ||
    textNotePhrases.any (fun ph => strContains (lowerStr text) ph)

/-- `text.startswith(tuple(str(i) + '.' for i in range(1, 10)))`. -/
def startsWithDigitDot (text : String) : Bool :=
  (List.range 9).any (fun i => strStartsWith text (toString (i + 1) ++ "."))

/-- Python dict assignment `d[k] = v` on an insertion-ordered association
list: overwrite in place when the key exists, else append. -/
def dictSet (d : List (String × String)) (k v : String) : List (String × String) :=
  if d.any (fun kv => kv.1 == k) then
    d.map (fun kv => if kv.1 == k then (k, v) else kv)
  else d ++ [(k, v)]

/-- Result accumulator of `_process_content`: main narrative paragraphs, the
`after_separator` note paragraphs, and the footnote table.  (`debug_notes`,
`found_separator` and `in_main_content` are debug-only/dead state in the
source and are not modelled.) -/
structure ProcessResult where
  paragraphs : List Html
  afterSeparator : List Html
  footnotes : List (String × String)

/-- One iteration of the `for p in content_div.find_all('p')` loop of
`_process_content`, with the two feature flags passed explicitly. -/
def processStep (incFootnotes incNotes : Bool) (st : ProcessResult) (p : Html) :
    ProcessResult :=
  let text := trimStr (textContent p)
  if text = "" then st
  else if strStartsWith text "T/L:" || strStartsWith text "T/N:" then
    if incNotes then { st with afterSeparator := st.afterSeparator ++ [p] } else st
  else if startsWithDigitDot text && strHasChar text ':' then
    if incFootnotes then
      { st with footnotes := dictSet st.footnotes (keyBeforeDot text) text }
    else st
  else if strContains text "T/N:" || strContains text "Chapter Note:" ||
      strContains text "Thanks for playing" || strContains text "As always" ||
      isNoteOrMessage text p then
    if incNotes then { st with afterSeparator := st.afterSeparator ++ [p] } else st
  else if !isChapterNumber text then
    { st with paragraphs := st.paragraphs ++ [p] }
  else st

/-- `_process_content` on the paragraph elements of the cleaned container. -/
def processContent (incFootnotes incNotes : Bool) (ps : List Html) : ProcessResult :=
  ps.foldl (processStep incFootnotes incNotes) ⟨[], [], []⟩

/-! ## Chapter formatter (`_format_chapter_content`, and the identical
footnote-processing block of `lightnovelScraper_Simple.py`) -/

/-- Python dict membership `k in d`. -/
def containsKey (d : List (String × String)) (k : String) : Bool :=
  d.any (fun kv => kv.1 == k)

mutual

/-- The footnote-enabled branch: for every `sup` element whose stripped text
is a key of the footnote table, wrap it in `<a href="#footnote-{key}">`
(`sup.wrap(soup_p.new_tag('a', href=...))`); everything else is kept as is. -/
def wrapSups (footnotes : List (String × String)) : Html → Html
  | .text s => .text s
  | .elem tag attrs children =>
      let refNum := trimStr (textContentList children)
      if tag == "sup" && containsKey footnotes refNum then
        .elem "a" [("href", "#footnote-" ++ refNum)]
          [.elem tag attrs (wrapSupsList footnotes children)]
      else .elem tag attrs (wrapSupsList footnotes children)

/-- `wrapSups` over sibling nodes. -/
def wrapSupsList (footnotes : List (String × String)) : List Html → List Html
  | [] => []
  | h :: t => wrapSups footnotes h :: wrapSupsList footnotes t

end

/-- Scan for the closing `</sup>` of the lazy regex `<sup>.*?</sup>`;
`.` does not match a newline, so the scan fails at one.  Returns the
remainder after the closing tag. -/
def scanSupClose : List Char → Option (List Char)
  | [] => none
  | c :: rest =>
      if "</sup>".toList.isPrefixOf (c :: rest) then some ((c :: rest).drop 6)
      else if c = '\n' then none
      else scanSupClose rest

/-- `re.sub(r'<sup>.*?</sup>', '', p)` on a character list, fuelled by the
input length (each step consumes at least one character, so the fuel never
runs out on the initial call). -/
def removeSupSpansAux : ℕ → List Char → List Char
  | 0, s => s
  | _ + 1, [] => []
  | fuel + 1, c :: rest =>
      if "<sup>".toList.isPrefixOf (c :: rest) then
        match scanSupClose ((c :: rest).drop 5) with
        | some rest' => removeSupSpansAux fuel rest'
        | none => c :: removeSupSpansAux fuel rest
      else c :: removeSupSpansAux fuel rest

/-- `re.sub(r'<sup>.*?</sup>', '', p)` on a string. -/
def removeSupSpans (s : String) : String :=
  String.mk (removeSupSpansAux s.data.length s.data)

/-- Processing of one narrative paragraph by `_format_chapter_content`:
with footnotes enabled, re-parse (identity on the tree), wrap matching `sup`
markers, serialize; with footnotes disabled, strip `<sup>...</sup>` spans
from the serialized markup. -/
def formatParagraph (incFootnotes : Bool) (footnotes : List (String × String))
    (p : Html) : String :=
  if incFootnotes then htmlToString (wrapSups footnotes p)
  else removeSupSpans (htmlToString p)

/-- `_format_chapter_content`: process every narrative paragraph and join
with `"\n"`, in document order. -/
def formatChapterContent (incFootnotes : Bool) (paragraphs : List Html)
    (footnotes : List (String × String)) : String :=
  String.intercalate "\n" (paragraphs.map (formatParagraph incFootnotes footnotes))

/-! ## Separator-based classifier
(`lightnovelScraper_Simple.py`, `get_chapter_content`, paragraph loop) -/

/-- Loop state of the Simple variant's extraction loop: collected narrative
paragraphs, `after_separator` note texts, the footnote table, and the
`found_first_separator` / `in_main_content` mode flags. -/
structure SimpleResult where
  paragraphs : List Html
  afterSeparator : List String
  footnotes : List (String × String)
  foundFirstSeparator : Bool
  inMainContent : Bool

/-- The footnote-return marker `'↩'` (U+21A9). -/
def returnMarker : Char := Char.ofNat 8617

/-- The footnote-collection inner loop: for each `sup` descendant, insert
`(ref.text.strip(), text)` unless the key is already present. -/
def addFootnoteRefs (footnotes : List (String × String)) (sups : List Html)
    (text : String) : List (String × String) :=
  sups.foldl
    (fun acc ref =>
      let k := trimStr (textContent ref)
      if acc.any (fun kv => kv.1 == k) then acc else acc ++ [(k, text)])
    footnotes

/-- One iteration of the `for p in content_div.find_all('p')` loop of the
Simple variant: `||` paragraphs toggle the mode flags, main-content
paragraphs are collected, and trailing paragraphs become footnotes (when the
text carries the return marker and footnotes are enabled) or notes (when
chapter notes are enabled). -/
def simpleStep (incFootnotes incNotes : Bool) (st : SimpleResult) (p : Html) :
    SimpleResult :=
  let text := trimStr (textContent p)
  if text = "" then st
  else if text = "||" then
    if !st.foundFirstSeparator then { st with foundFirstSeparator := true }
    else { st with inMainContent := false }
  else if st.inMainContent then
    { st with paragraphs := st.paragraphs ++ [p] }
  else if strHasChar text returnMarker && incFootnotes then
    { st with footnotes := addFootnoteRefs st.footnotes (findDescendants ["sup"] p) text }
  else if incNotes then
    { st with afterSeparator := st.afterSeparator ++ [text] }
  else st

/-- The Simple variant's whole extraction loop over the paragraph elements of
the cleaned container. -/
def simpleClassify (incFootnotes incNotes : Bool) (ps : List Html) : SimpleResult :=
  ps.foldl (simpleStep incFootnotes incNotes) ⟨[], [], [], false, true⟩

/-! ## Fetch-retry loop (`LightNovelScraper.py`, `get_chapter_content`)

One attempt's interaction with the network/parser is summarized by an
`AttemptInput` oracle: either the request raised (network error / non-2xx),
the body was empty, or a page parsed into an optional title element and an
optional content container (given by its paragraph elements).  The retry
loop consumes one oracle entry per attempt. -/

/-- What the fetch/parse collaborators produce for one attempt. -/
inductive AttemptInput where
  | netError : AttemptInput
  | emptyBody : AttemptInput
  | page : Option String → Option (List Html) → AttemptInput

/-- The successful result of one chapter fetch:
`(chapter_title, content, after_separator, footnotes)`. -/
structure ChapterRecord where
  title : String
  content : String
  notes : List Html
  footnotes : List (String × String)

/-- The `try:` body of one attempt of the full variant's
`get_chapter_content`: each structural failure raises (`Except.error`),
mirroring `raise_for_status`, the empty-body check, the missing-title check,
the missing-container check, and the zero-narrative-paragraphs check; on
success the formatted record is returned.  (`_process_chapter_title`'s
simple-naming transform only rewrites the title text and is not modelled.) -/
def attemptBody (incFootnotes incNotes : Bool) :
    AttemptInput → Except String ChapterRecord
  | .netError => .error "HTTPError"
  | .emptyBody => .error "Empty response received"
  | .page none _ => .error "Chapter title not found"
  | .page (some _) none => .error "Content container not found"
  | .page (some t) (some ps) =>
      let r := processContent incFootnotes incNotes ps
      if r.paragraphs.length = 0 then .error "No valid content found"
      else
        .ok ⟨t, formatChapterContent incFootnotes r.paragraphs r.footnotes,
          r.afterSeparator, r.footnotes⟩

/-- Observable trace of one full-variant chapter fetch: number of attempt
bodies run, the retry sleeps performed (in seconds, in order), the rate
limiter's consecutive-failure counter afterwards, and the outcome (`none` is
the all-`None` failure return). -/
structure FetchTrace where
  attemptsMade : ℕ
  retrySleeps : List ℕ
  limiterFailures : ℕ
  outcome : Option ChapterRecord

/-- The `for attempt in range(MAX_RETRIES)` loop of the full variant,
consuming one `AttemptInput` per attempt (the list holds exactly the inputs
of the remaining attempts).  On success: `record_success` (failure counter
reset to 0) and return.  On an exception: `record_failure`; when attempts
remain, sleep `(attempt + 1) * 5` seconds and loop; on the last attempt,
return the failure outcome with no further sleep. -/
def fetchGo (incFootnotes incNotes : Bool) (attempt limiterFailed : ℕ)
    (sleeps : List ℕ) : List AttemptInput → FetchTrace
  | [] => ⟨attempt, sleeps, limiterFailed, none⟩
  | inp :: rest =>
      match attemptBody incFootnotes incNotes inp with
      | .ok r => ⟨attempt + 1, sleeps, 0, some r⟩
      | .error _ =>
          if rest.isEmpty then ⟨attempt + 1, sleeps, limiterFailed + 1, none⟩
          else fetchGo incFootnotes incNotes (attempt + 1) (limiterFailed + 1)
            (sleeps ++ [(attempt + 1) * 5]) rest

/-- `MAX_RETRIES` from `ScraperConstants`. -/
def maxRetriesConst : ℕ := 3

/-- The full variant's `get_chapter_content` retry loop: exactly
`MAX_RETRIES = 3` attempt inputs are consumed (unspecified attempts default
to a network error), starting from the rate limiter's current
consecutive-failure count. -/
def getChapterContentFull (incFootnotes incNotes : Bool) (limiterFailed : ℕ)
    (inputs : List AttemptInput) : FetchTrace :=
  fetchGo incFootnotes incNotes 0 limiterFailed []
    ((inputs ++ List.replicate maxRetriesConst AttemptInput.netError).take maxRetriesConst)

/-- The full variant's `get_chapter_content` including the leading
`validate_url` guard, which raises `ValidationError` outside the `try`
(so it is the only failure that escapes the per-attempt handler). -/
def getChapterContentTop (incFootnotes incNotes : Bool) (urlValid : Bool)
    (limiterFailed : ℕ) (inputs : List AttemptInput) : Except String FetchTrace :=
  if !urlValid then .error "Invalid chapter URL"
  else .ok (getChapterContentFull incFootnotes incNotes limiterFailed inputs)

/-! ## Fetch loop of the Simple variant
(`lightnovelScraper_Simple.py`, `get_chapter_content`) -/

/-- Result of one attempt body in the Simple variant: the missing-title,
missing-container and zero-paragraph checks `return None, ...` immediately
(`immediateFail`), while network errors and empty bodies raise and are
retried (`raised`). -/
inductive SimpleAttemptResult where
  | raised : SimpleAttemptResult
  | immediateFail : SimpleAttemptResult
  | success : ChapterRecord → SimpleAttemptResult

/-- The `try:` body of one attempt of the Simple variant. -/
def simpleAttemptBody (incFootnotes incNotes : Bool) :
    AttemptInput → SimpleAttemptResult
  | .netError => .raised
  | .emptyBody => .raised
  | .page none _ => .immediateFail
  | .page (some _) none => .immediateFail
  | .page (some t) (some ps) =>
      let r := simpleClassify incFootnotes incNotes ps
      if r.paragraphs.isEmpty then .immediateFail
      else
        .success ⟨t, formatChapterContent incFootnotes r.paragraphs r.footnotes,
          [], r.footnotes⟩

/-- Observable trace of one Simple-variant chapter fetch (the Simple variant
has no failure bookkeeping in its rate limiter). -/
structure SimpleFetchTrace where
  attemptsMade : ℕ
  retrySleeps : List ℕ
  succeeded : Bool

/-- The `for attempt in range(self.max_retries)` loop of the Simple variant:
an `immediateFail` returns the failure at once without retrying; a raised
exception retries with a `(attempt + 1) * 5` second sleep unless it was the
final attempt. -/
def simpleFetchGo (incFootnotes incNotes : Bool) (attempt : ℕ)
    (sleeps : List ℕ) : List AttemptInput → SimpleFetchTrace
  | [] => ⟨attempt, sleeps, false⟩
  | inp :: rest =>
      match simpleAttemptBody incFootnotes incNotes inp with
      | .success _ => ⟨attempt + 1, sleeps, true⟩
      | .immediateFail => ⟨attempt + 1, sleeps, false⟩
      | .raised =>
          if rest.isEmpty then ⟨attempt + 1, sleeps, false⟩
          else simpleFetchGo incFootnotes incNotes (attempt + 1)
            (sleeps ++ [(attempt + 1) * 5]) rest

/-- The Simple variant's `get_chapter_content` retry loop
(`self.max_retries = 3`). -/
def getChapterContentSimple (incFootnotes incNotes : Bool)
    (inputs : List AttemptInput) : SimpleFetchTrace :=
  simpleFetchGo incFootnotes incNotes 0 []
    ((inputs ++ List.replicate maxRetriesConst AttemptInput.netError).take maxRetriesConst)

/-! ## Driver loop (`LightNovelScraper.py`, `main`, chapter loop) -/

/-- One run of the driver's per-chapter loop: every chapter's fetch outcome
is inspected; a success is appended to the collected records, a failure only
bumps the failure counter (skip-with-warning) and the loop continues. -/
def driverLoop (incFootnotes incNotes : Bool) :
    ℕ → List (List AttemptInput) → ℕ × ℕ × List ChapterRecord
  | _, [] => (0, 0, [])
  | limiterFailed, ch :: rest =>
      let t := getChapterContentFull incFootnotes incNotes limiterFailed ch
      let (succ, fail, recs) := driverLoop incFootnotes incNotes t.limiterFailures rest
      match t.outcome with
      | some r => (succ + 1, fail, r :: recs)
      | none => (succ, fail + 1, recs)

/-! ## Chapter-range input validation (`LightNovelScraper.py`,
`get_user_input`, chapter-bounds section) -/

/-- Python truthiness of an optional integer argument (`argparse` leaves
omitted arguments as `None`; `0` is falsy). -/
def pyTruthy : Option Int → Bool
  | none => false
  | some n => n != 0

/-- The interactive chapter-bounds path: parse both numbers, then raise
`ValidationError` when start exceeds end. -/
def interactiveChapters (stdinStart stdinEnd : Int) : Except String (Int × Int) :=
  if stdinStart > stdinEnd then
    .error "Start chapter cannot be greater than end chapter"
  else .ok (stdinStart, stdinEnd)

/-- The chapter-bounds section of `get_user_input`: when both `--start` and
`--end` are (truthy) command-line arguments they are taken as given; only
otherwise are the interactively entered bounds validated. -/
def getUserInputChapters (argsStart argsEnd : Option Int)
    (stdinStart stdinEnd : Int) : Except String (Int × Int) :=
  if pyTruthy argsStart && pyTruthy argsEnd then
    .ok (argsStart.getD 0, argsEnd.getD 0)
  else interactiveChapters stdinStart stdinEnd

/-! ## Specification-side characterizations and shared fixtures -/

/-- Specification characterization of the Simple variant's narrative zone:
the nonempty-text paragraphs other than the `||` separators that occur
strictly before the second `||` separator (`foundFirst` records whether one
separator has been seen). -/
def narrativeZoneGo (foundFirst : Bool) : List Html → List Html
  | [] => []
  | p :: rest =>
      let text := trimStr (textContent p)
      if text = "" then narrativeZoneGo foundFirst rest
      else if text = "||" then
        if foundFirst then [] else narrativeZoneGo true rest
      else p :: narrativeZoneGo foundFirst rest

/-- Specification characterization of the Simple variant's narrative output
on a paragraph list. -/
def narrativeZone (ps : List Html) : List Html :=
  narrativeZoneGo false ps

mutual

/-- No `sup` descendant (or the node itself as a `sup`) has stripped text
matching a footnote key: the frame condition for `wrapSups`. -/
def noMatchingSup (footnotes : List (String × String)) : Html → Bool
  | .text _ => true
  | .elem tag _ children =>
      !(tag == "sup" && containsKey footnotes (trimStr (textContentList children))) &&
        noMatchingSupList footnotes children

/-- `noMatchingSup` over sibling nodes. -/
def noMatchingSupList (footnotes : List (String × String)) : List Html → Bool
  | [] => true
  | h :: t => noMatchingSup footnotes h && noMatchingSupList footnotes t

end

/-- Two attempt-body results that the retry loop cannot distinguish: equal
successes, or both exceptions (of any message). -/
def sameClass : Except String ChapterRecord → Except String ChapterRecord → Prop
  | .ok r1, .ok r2 => r1 = r2
  | .error _, .error _ => True
  | _, _ => False

/-- Fixture `<p>text<sup>1</sup></p>`. -/
def supRefParagraph : Html := .elem "p" [] [.text "text", .elem "sup" [] [.text "1"]]

/-- Fixture `<p>more</p>`. -/
def moreParagraph : Html := .elem "p" [] [.text "more"]

/-- Fixture `<p><strong>Translator's Note</strong>: hello</p>`. -/
def translatorNoteParagraph : Html :=
  .elem "p" [] [.elem "strong" [] [.text ("Translator" ++ apos ++ "s Note")], .text ": hello"]

/-- Fixture `<p>1. note: x</p>` (a footnote-definition paragraph). -/
def digitFootnoteParagraph : Html := .elem "p" [] [.text "1. note: x"]

/-- Fixture `<p>5</p>` (a bare chapter-number paragraph). -/
def bareNumberParagraph : Html := .elem "p" [] [.text "5"]

/-- Fixture `<p>lead</p>`. -/
def leadParagraph : Html := .elem "p" [] [.text "lead"]

/-- Fixture `<p>||</p>` (the separator marker). -/
def separatorParagraph : Html := .elem "p" [] [.text "||"]

/-- Fixture `<p>main</p>`. -/
def mainParagraph : Html := .elem "p" [] [.text "main"]

/-- Fixture `<p>trail</p>`. -/
def trailParagraph : Html := .elem "p" [] [.text "trail"]

/-! # Theorems

Shared helper lemmas first, then one theorem per claim. -/

/-- With footnotes disabled, one classifier step never touches the footnote
table. -/
theorem processStep_footnotes_off (n : Bool) (st : ProcessResult) (p : Html) :
    (processStep false n st p).footnotes = st.footnotes := by
  simp only [processStep]
  repeat' split
  all_goals first | rfl | simp_all

/-- With chapter notes disabled, one classifier step never touches the note
list. -/
theorem processStep_notes_off (f : Bool) (st : ProcessResult) (p : Html) :
    (processStep f false st p).afterSeparator = st.afterSeparator := by
  simp only [processStep]
  repeat' split
  all_goals first | rfl | simp_all

/-- The narrative component of one classifier step does not depend on the
feature flags. -/
theorem processStep_paragraphs_congr (f1 n1 f2 n2 : Bool) (st1 st2 : ProcessResult)
    (p : Html) (h : st1.paragraphs = st2.paragraphs) :
    (processStep f1 n1 st1 p).paragraphs = (processStep f2 n2 st2 p).paragraphs := by
  simp only [processStep]
  repeat' split
  all_goals first | exact h | simp only [h]

/-- Any paragraph the classifier step adds to the narrative is the scanned
paragraph itself, and its text fails `_is_chapter_number`. -/
theorem processStep_paragraphs_mem (f n : Bool) (st : ProcessResult) (p q : Html)
    (hq : q ∈ (processStep f n st p).paragraphs) :
    q ∈ st.paragraphs ∨ (q = p ∧ isChapterNumber (trimStr (textContent p)) = false) := by
  simp only [processStep] at hq
  repeat' split at hq
  all_goals first | exact Or.inl hq | simp_all

/-- Folded version of `processStep_footnotes_off`. -/
theorem foldl_footnotes_off (n : Bool) :
    ∀ (ps : List Html) (st : ProcessResult),
      (ps.foldl (processStep false n) st).footnotes = st.footnotes := by
  intro ps
  induction ps with
  | nil => intro st; rfl
  | cons p rest ih =>
      intro st
      rw [List.foldl_cons, ih, processStep_footnotes_off]

/-- Folded version of `processStep_notes_off`. -/
theorem foldl_notes_off (f : Bool) :
    ∀ (ps : List Html) (st : ProcessResult),
      (ps.foldl (processStep f false) st).afterSeparator = st.afterSeparator := by
  intro ps
  induction ps with
  | nil => intro st; rfl
  | cons p rest ih =>
      intro st
      rw [List.foldl_cons, ih, processStep_notes_off]

/-- Folded version of `processStep_paragraphs_congr`. -/
theorem foldl_paragraphs_congr (f1 n1 f2 n2 : Bool) :
    ∀ (ps : List Html) (st1 st2 : ProcessResult),
      st1.paragraphs = st2.paragraphs →
      (ps.foldl (processStep f1 n1) st1).paragraphs =
        (ps.foldl (processStep f2 n2) st2).paragraphs := by
  intro ps
  induction ps with
  | nil => intro _ _ h; exact h
  | cons p rest ih =>
      intro st1 st2 h
      rw [List.foldl_cons, List.foldl_cons]
      exact ih _ _ (processStep_paragraphs_congr f1 n1 f2 n2 st1 st2 p h)

/-- Folded version of `processStep_paragraphs_mem`. -/
theorem foldl_paragraphs_mem (f n : Bool) :
    ∀ (ps : List Html) (st : ProcessResult) (q : Html),
      q ∈ (ps.foldl (processStep f n) st).paragraphs →
      q ∈ st.paragraphs ∨
        (q ∈ ps ∧ isChapterNumber (trimStr (textContent q)) = false) := by
  intro ps
  induction ps with
  | nil => intro st q hq; exact Or.inl hq
  | cons p rest ih =>
      intro st q hq
      rw [List.foldl_cons] at hq
      rcases ih _ q hq with h1 | h1
      · rcases processStep_paragraphs_mem f n st p q h1 with h2 | h2
        · exact Or.inl h2
        · refine Or.inr ⟨by simp [h2.1], ?_⟩
          rw [h2.1]
          exact h2.2
      · exact Or.inr ⟨List.mem_cons_of_mem _ h1.1, h1.2⟩

/-- With footnotes disabled, one Simple-variant step never touches the
footnote table. -/
theorem simpleStep_footnotes_off (n : Bool) (st : SimpleResult) (p : Html) :
    (simpleStep false n st p).footnotes = st.footnotes := by
  simp only [simpleStep]
  repeat' split
  all_goals first | rfl | simp_all

/-- With chapter notes disabled, one Simple-variant step never touches the
note list. -/
theorem simpleStep_notes_off (f : Bool) (st : SimpleResult) (p : Html) :
    (simpleStep f false st p).afterSeparator = st.afterSeparator := by
  simp only [simpleStep]
  repeat' split
  all_goals first | rfl | simp_all

/-- Folded version of `simpleStep_footnotes_off`. -/
theorem simpleFoldl_footnotes_off (n : Bool) :
    ∀ (ps : List Html) (st : SimpleResult),
      (ps.foldl (simpleStep false n) st).footnotes = st.footnotes := by
  intro ps
  induction ps with
  | nil => intro st; rfl
  | cons p rest ih =>
      intro st
      rw [List.foldl_cons, ih, simpleStep_footnotes_off]

/-- Folded version of `simpleStep_notes_off`. -/
theorem simpleFoldl_notes_off (f : Bool) :
    ∀ (ps : List Html) (st : SimpleResult),
      (ps.foldl (simpleStep f false) st).afterSeparator = st.afterSeparator := by
  intro ps
  induction ps with
  | nil => intro st; rfl
  | cons p rest ih =>
      intro st
      rw [List.foldl_cons, ih, simpleStep_notes_off]

/-- After the second separator (`in_main_content = False`), a Simple-variant
step never adds narrative and never re-enters main content. -/
theorem simpleStep_not_main (f n : Bool) (st : SimpleResult) (p : Html)
    (h : st.inMainContent = false) :
    (simpleStep f n st p).paragraphs = st.paragraphs ∧
      (simpleStep f n st p).inMainContent = false := by
  simp only [simpleStep]
  repeat' split
  all_goals simp_all

/-- Folded version of `simpleStep_not_main`. -/
theorem simpleFoldl_not_main (f n : Bool) :
    ∀ (ps : List Html) (st : SimpleResult),
      st.inMainContent = false →
      (ps.foldl (simpleStep f n) st).paragraphs = st.paragraphs := by
  intro ps
  induction ps with
  | nil => intro st _; rfl
  | cons p rest ih =>
      intro st h
      rw [List.foldl_cons]
      have hs := simpleStep_not_main f n st p h
      rw [ih _ hs.2, hs.1]

/-- While in main content, the Simple-variant loop's narrative output is the
`narrativeZoneGo` characterization. -/
theorem simpleFoldl_main (f n : Bool) :
    ∀ (ps : List Html) (st : SimpleResult),
      st.inMainContent = true →
      (ps.foldl (simpleStep f n) st).paragraphs =
        st.paragraphs ++ narrativeZoneGo st.foundFirstSeparator ps := by
  intro ps
  induction ps with
  | nil => intro st _; simp [narrativeZoneGo]
  | cons p rest ih =>
      intro st h
      rw [List.foldl_cons]
      by_cases h0 : trimStr (textContent p) = ""
      · have e1 : simpleStep f n st p = st := by
          simp [simpleStep, h0]
        rw [e1, ih st h]
        simp [narrativeZoneGo, h0]
      · by_cases h1 : trimStr (textContent p) = "||"
        · by_cases h2 : st.foundFirstSeparator = true
          · have e1 : simpleStep f n st p = { st with inMainContent := false } := by
              simp [simpleStep, h0, h1, h2]
            rw [e1, simpleFoldl_not_main f n rest _ rfl]
            simp [narrativeZoneGo, h0, h1, h2]
          · have h2' : st.foundFirstSeparator = false := by
              simpa using h2
            have e1 : simpleStep f n st p = { st with foundFirstSeparator := true } := by
              simp [simpleStep, h0, h1, h2']
            rw [e1, ih { st with foundFirstSeparator := true } h]
            simp [narrativeZoneGo, h0, h1, h2']
        · have e1 : simpleStep f n st p = { st with paragraphs := st.paragraphs ++ [p] } := by
            simp [simpleStep, h0, h1, h]
          rw [e1, ih { st with paragraphs := st.paragraphs ++ [p] } h]
          simp [narrativeZoneGo, h0, h1]

/-- The Simple variant's narrative output equals the `narrativeZone`
characterization, for every flag setting. -/
theorem simpleClassify_paragraphs_eq (f n : Bool) (ps : List Html) :
    (simpleClassify f n ps).paragraphs = narrativeZone ps := by
  have h := simpleFoldl_main f n ps ⟨[], [], [], false, true⟩ rfl
  simpa [simpleClassify, narrativeZone] using h

/-- C1 counterexample: on the fragment `<p>1. note: x</p>`, the classifier
collects the footnote into the table when `INCLUDE_FOOTNOTES` is on but
leaves the table empty when it is off — so two runs differing only in flag
values do NOT return identical footnotes; the flag gates collection, not
just rendering. -/
theorem classify_flags_counterexample :
    (processContent true false [digitFootnoteParagraph]).footnotes ≠
      (processContent false false [digitFootnoteParagraph]).footnotes := by
  decide

/-- C1 amended: the flags never change which paragraphs are classified as
narrative (detection is flag-independent, e.g. the Translator's-Note fixture
is never narrative under any flag setting), but collection is gated: with
`INCLUDE_CHAPTER_NOTES` off the note list stays empty and with
`INCLUDE_FOOTNOTES` off the footnote table stays empty, in both variants. -/
theorem classify_flags_gate_collection (f1 n1 f2 n2 f n : Bool) (ps : List Html) :
    (processContent f1 n1 ps).paragraphs = (processContent f2 n2 ps).paragraphs ∧
    (processContent f false ps).afterSeparator = [] ∧
    (processContent false n ps).footnotes = [] ∧
    (simpleClassify f1 n1 ps).paragraphs = (simpleClassify f2 n2 ps).paragraphs ∧
    (simpleClassify f false ps).afterSeparator = [] ∧
    (simpleClassify false n ps).footnotes = [] ∧
    (processContent f1 n1 [translatorNoteParagraph]).paragraphs = [] := by
  refine ⟨?_, ?_, ?_, ?_, ?_, ?_, ?_⟩
  · exact foldl_paragraphs_congr f1 n1 f2 n2 ps _ _ rfl
  · exact foldl_notes_off f ps _
  · exact foldl_footnotes_off n ps _
  · rw [simpleClassify_paragraphs_eq f1 n1 ps, simpleClassify_paragraphs_eq f2 n2 ps]
  · exact simpleFoldl_notes_off f ps _
  · exact simpleFoldl_footnotes_off n ps _
  · cases f1 <;> cases n1 <;> rfl

/-- C2 counterexample: on
`<p>lead</p><p>||</p><p>main</p><p>||</p><p>trail</p>`, the paragraph
occurring before the first `||` is classified as narrative (it is not a
leading note), refuting "no paragraph before the first `||` is classified
as narrative". -/
theorem separator_zone_counterexample :
    (simpleClassify true true [leadParagraph, separatorParagraph, mainParagraph,
        separatorParagraph, trailParagraph]).paragraphs =
      [leadParagraph, mainParagraph] ∧
    trimStr (textContent leadParagraph) ≠ "||" := by
  exact ⟨rfl, by decide⟩

/-- C2 amended: in the separator-based variant the narrative output is
exactly the nonempty non-`||` paragraphs occurring strictly before the
second `||`: main content begins immediately (paragraphs before the first
`||` included), the separators themselves are never narrative, and nothing
at or after the second `||` is ever narrative. -/
theorem separator_zone_characterization (f n : Bool) (ps : List Html) :
    (simpleClassify f n ps).paragraphs = narrativeZone ps :=
  simpleClassify_paragraphs_eq f n ps

/-- C7 counterexample: the separator-based variant keeps the bare-number
paragraph `<p>5</p>` (trimmed text matching `^\d+$`) as narrative — the
exclusion does not hold "in either variant". -/
theorem bare_number_counterexample :
    (simpleClassify true true [bareNumberParagraph]).paragraphs =
      [bareNumberParagraph] ∧
    isDigits1 (trimStr (textContent bareNumberParagraph)).data = true := by
  exact ⟨rfl, rfl⟩

/-- C7 amended: in the pattern-based variant, every narrative paragraph is
one of the scanned paragraphs and its trimmed text fails
`_is_chapter_number` — in particular it never matches `^\d+$`; the
separator-based variant performs no such exclusion. -/
theorem bare_number_excluded_pattern_variant (f n : Bool) (ps : List Html)
    (q : Html) (hq : q ∈ (processContent f n ps).paragraphs) :
    q ∈ ps ∧ isChapterNumber (trimStr (textContent q)) = false ∧
      isDigits1 (lowerStr (trimStr (trimStr (textContent q)))).data = false := by
  rcases foldl_paragraphs_mem f n ps _ q hq with h1 | h1
  · simp at h1
  · refine ⟨h1.1, h1.2, ?_⟩
    have h2 := h1.2
    simp only [isChapterNumber, Bool.or_eq_false_iff] at h2
    exact h2.1.1

/-- Witness for `bare_number_excluded_pattern_variant` at the fragment
`<p>main</p>`. -/
theorem bare_number_excluded_pattern_variant_witness :
    mainParagraph ∈ [mainParagraph] ∧
      isChapterNumber (trimStr (textContent mainParagraph)) = false ∧
      isDigits1 (lowerStr (trimStr (trimStr (textContent mainParagraph)))).data = false :=
  bare_number_excluded_pattern_variant true true [mainParagraph] mainParagraph
    (by rw [show (processContent true true [mainParagraph]).paragraphs =
        [mainParagraph] from rfl]; exact List.mem_singleton_self _)

/-- C5: `RateLimiter.wait` sleeps `max(0, 1/rate − elapsed)` seconds against
the last recorded request (zero when none is recorded), plus the penalty
`min(300, 2^failed_attempts − 1)` exactly when the consecutive-failure
counter is positive; `record_success` resets the counter to exactly zero and
`record_failure` increments it by exactly one. -/
theorem rateLimiter_contract (rl : RateLimiter) (now t : ℚ)
    (hmin : rl.minInterval = 1 / rl.rate) :
    (rl.lastRequestTimes.getLast? = none →
      rl.waitTime now =
        if rl.failedAttempts > 0 then min 300 ((2 : ℚ) ^ rl.failedAttempts - 1)
        else 0) ∧
    (rl.lastRequestTimes.getLast? = some t →
      rl.waitTime now =
        max 0 (1 / rl.rate - (now - t)) +
          if rl.failedAttempts > 0 then min 300 ((2 : ℚ) ^ rl.failedAttempts - 1)
          else 0) ∧
    rl.recordSuccess.failedAttempts = 0 ∧
    rl.recordFailure.failedAttempts = rl.failedAttempts + 1 := by
  refine ⟨?_, ?_, rfl, rfl⟩
  · intro h
    simp only [RateLimiter.waitTime, h]
    split <;> simp
  · intro h
    simp only [RateLimiter.waitTime, h, hmin]
    split <;> simp

/-- Witness for `rateLimiter_contract` at a freshly initialized limiter with
20 requests per second. -/
theorem rateLimiter_contract_witness :
    (RateLimiter.init 20).recordFailure.failedAttempts =
      (RateLimiter.init 20).failedAttempts + 1 :=
  (rateLimiter_contract (RateLimiter.init 20) 1 0 rfl).2.2.2

/-- C9 counterexample: with `--start 5 --end 2` both given on the command
line, the chapter-bounds section accepts the pair unchecked — no validation
error is raised although start exceeds end. -/
theorem chapter_bounds_counterexample :
    getUserInputChapters (some 5) (some 2) 1 1 = Except.ok (5, 2) ∧
      (5 : Int) > 2 := by
  exact ⟨rfl, by decide⟩

/-- C9 amended: a start>end pair is rejected as a fatal validation error
only on the interactive input path; when both bounds arrive as (nonzero)
command-line arguments the check is skipped and the pair is accepted as
given. -/
theorem chapter_bounds_validation (s e a b : Int) (hs : s ≠ 0) (he : e ≠ 0)
    (hgt : s > e) :
    getUserInputChapters none none s e =
      Except.error "Start chapter cannot be greater than end chapter" ∧
    getUserInputChapters (some s) (some e) a b = Except.ok (s, e) := by
  constructor
  · simp [getUserInputChapters, pyTruthy, interactiveChapters, hgt]
  · simp [getUserInputChapters, pyTruthy, hs, he, bne_iff_ne]

/-- Witness for `chapter_bounds_validation` at `start = 5`, `end = 2`. -/
theorem chapter_bounds_validation_witness :
    getUserInputChapters none none 5 2 =
      Except.error "Start chapter cannot be greater than end chapter" ∧
    getUserInputChapters (some 5) (some 2) 1 1 = Except.ok (5, 2) :=
  chapter_bounds_validation 5 2 1 1 (by decide) (by decide) (by decide)

/-- C6: for `<p>text<sup>1</sup></p>` with key `"1"` in the footnote table,
formatting with footnotes enabled wraps the `<sup>` in an anchor linking to
`footnote-1`; with footnotes disabled the whole `<sup>` element is removed
and no anchor appears; paragraphs are joined by `"\n"` in document order. -/
theorem footnote_link_roundtrip (fns : List (String × String))
    (h : containsKey fns "1" = true) :
    formatChapterContent true [supRefParagraph] fns =
      "<p>text<a href=\"#footnote-1\"><sup>1</sup></a></p>" ∧
    formatChapterContent false [supRefParagraph] fns = "<p>text</p>" ∧
    formatChapterContent true [supRefParagraph, moreParagraph] fns =
      "<p>text<a href=\"#footnote-1\"><sup>1</sup></a></p>" ++ "\n" ++
        "<p>more</p>" := by
  have e1 : trimStr (textContentList [Html.text "1"]) = "1" := rfl
  have e2 : (("p" == "sup") : Bool) = false := rfl
  have hw : wrapSups fns supRefParagraph =
      .elem "p" [] [.text "text",
        .elem "a" [("href", "#footnote-1")] [.elem "sup" [] [.text "1"]]] := by
    simp [supRefParagraph, wrapSups, wrapSupsList, e1, e2, h]
  have hw2 : wrapSups fns moreParagraph = moreParagraph := by
    simp [moreParagraph, wrapSups, wrapSupsList, e2]
  refine ⟨?_, ?_, ?_⟩
  · simp [formatChapterContent, formatParagraph, hw]
    decide
  · have e3 : formatParagraph false fns supRefParagraph =
        removeSupSpans (htmlToString supRefParagraph) := rfl
    simp only [formatChapterContent, List.map, e3]
    decide
  · simp [formatChapterContent, formatParagraph, hw, hw2]
    decide

/-- Witness for `footnote_link_roundtrip` with the footnote table
`[("1", "1. a footnote")]`. -/
theorem footnote_link_roundtrip_witness :
    formatChapterContent true [supRefParagraph] [("1", "1. a footnote")] =
      "<p>text<a href=\"#footnote-1\"><sup>1</sup></a></p>" :=
  (footnote_link_roundtrip [("1", "1. a footnote")] (by decide)).1

mutual

/-- A node containing no key-matching `sup` is left unchanged by
`wrapSups`. -/
theorem wrapSups_id_of_noMatch (fns : List (String × String)) :
    ∀ t : Html, noMatchingSup fns t = true → wrapSups fns t = t
  | .text _, _ => rfl
  | .elem tag attrs children, h => by
      have h' := h
      simp only [noMatchingSup, Bool.and_eq_true, Bool.not_eq_true'] at h'
      have e : wrapSups fns (.elem tag attrs children) =
          if tag == "sup" && containsKey fns (trimStr (textContentList children)) then
            Html.elem "a" [("href", "#footnote-" ++ trimStr (textContentList children))]
              [.elem tag attrs (wrapSupsList fns children)]
          else .elem tag attrs (wrapSupsList fns children) := rfl
      rw [e, if_neg (by simp [h'.1]), wrapSupsList_id_of_noMatch fns children h'.2]

/-- List version of `wrapSups_id_of_noMatch`. -/
theorem wrapSupsList_id_of_noMatch (fns : List (String × String)) :
    ∀ ts : List Html, noMatchingSupList fns ts = true → wrapSupsList fns ts = ts
  | [], _ => rfl
  | t :: ts, h => by
      have h' := h
      simp only [noMatchingSupList, Bool.and_eq_true] at h'
      have e : wrapSupsList fns (t :: ts) =
          wrapSups fns t :: wrapSupsList fns ts := rfl
      rw [e, wrapSups_id_of_noMatch fns t h'.1, wrapSupsList_id_of_noMatch fns ts h'.2]

end

/-- C10: with footnotes enabled, a node containing no `sup` whose trimmed
text is a footnote key is left completely unchanged by the formatter's
`sup`-wrapping pass; a `sup` whose trimmed text IS a key is wrapped in an
anchor to `#footnote-{key}`; and in a mixed paragraph only the matching
`sup` changes while all surrounding markup is preserved. -/
theorem wrapSups_frame (fns : List (String × String)) :
    (∀ t : Html, noMatchingSup fns t = true → wrapSups fns t = t) ∧
    (∀ (attrs : List (String × String)) (children : List Html),
      containsKey fns (trimStr (textContentList children)) = true →
      wrapSups fns (.elem "sup" attrs children) =
        .elem "a" [("href", "#footnote-" ++ trimStr (textContentList children))]
          [.elem "sup" attrs (wrapSupsList fns children)]) ∧
    wrapSups [("1", "fn")]
        (.elem "p" [] [.text "a", .elem "sup" [] [.text "1"], .text "b",
          .elem "sup" [] [.text "9"]]) =
      .elem "p" [] [.text "a",
        .elem "a" [("href", "#footnote-1")] [.elem "sup" [] [.text "1"]],
        .text "b", .elem "sup" [] [.text "9"]] := by
  refine ⟨wrapSups_id_of_noMatch fns, ?_, ?_⟩
  · intro attrs children h
    have e : wrapSups fns (.elem "sup" attrs children) =
        if "sup" == "sup" && containsKey fns (trimStr (textContentList children)) then
          Html.elem "a" [("href", "#footnote-" ++ trimStr (textContentList children))]
            [.elem "sup" attrs (wrapSupsList fns children)]
        else .elem "sup" attrs (wrapSupsList fns children) := rfl
    rw [e, if_pos (by simp [h])]
  · rfl

/-- Witness for `wrapSups_frame`: a plain text node is untouched. -/
theorem wrapSups_frame_witness :
    wrapSups [("1", "fn")] (.text "hi") = .text "hi" :=
  (wrapSups_frame [("1", "fn")]).1 (.text "hi") rfl

/-- The padded oracle list always holds exactly the three attempts'
inputs. -/
theorem padTake3 (l : List AttemptInput) :
    (l ++ List.replicate maxRetriesConst AttemptInput.netError).take maxRetriesConst =
      [l.getD 0 .netError, l.getD 1 .netError, l.getD 2 .netError] := by
  match l with
  | [] => rfl
  | [a] => rfl
  | [a, b] => rfl
  | a :: b :: c :: rest => simp [maxRetriesConst, List.getD]

/-- `sameClass` is reflexive. -/
theorem sameClass_refl (e : Except String ChapterRecord) : sameClass e e := by
  cases e <;> simp [sameClass]

/-- The retry loop cannot distinguish pointwise `sameClass` oracle lists:
the whole fetch trace is identical. -/
theorem fetchGo_congr (f n : Bool) {xs ys : List AttemptInput}
    (h : List.Forall₂ (fun a b => sameClass (attemptBody f n a) (attemptBody f n b)) xs ys) :
    ∀ (attempt lf : ℕ) (sleeps : List ℕ),
      fetchGo f n attempt lf sleeps xs = fetchGo f n attempt lf sleeps ys := by
  induction h with
  | nil => intro _ _ _; rfl
  | cons hab htail ih =>
      intro attempt lf sleeps
      rename_i a b l1 l2
      simp only [fetchGo]
      cases ea : attemptBody f n a with
      | ok r1 =>
          cases eb : attemptBody f n b with
          | ok r2 =>
              rw [ea, eb] at hab
              simp only [sameClass] at hab
              rw [hab]
          | error m2 =>
              rw [ea, eb] at hab
              simp [sameClass] at hab
      | error m1 =>
          cases eb : attemptBody f n b with
          | ok r2 =>
              rw [ea, eb] at hab
              simp [sameClass] at hab
          | error m2 =>
              have hemp : l1.isEmpty = l2.isEmpty := by
                have hlen := htail.length_eq
                cases l1 <;> cases l2 <;> simp_all
              rw [hemp]
              by_cases he : l2.isEmpty = true
              · rw [if_pos he, if_pos he]
              · rw [if_neg he, if_neg he]
                exact ih _ _ _

/-- When the consecutive-failure counter is positive, the exponential
penalty is positive and so is the whole rate-limiter wait. -/
theorem waitTime_pos_of_failures (rl : RateLimiter) (now : ℚ)
    (h : 0 < rl.failedAttempts) :
    0 < min (300 : ℚ) (2 ^ rl.failedAttempts - 1) ∧ 0 < rl.waitTime now := by
  have h2 : (2 : ℚ) ≤ 2 ^ rl.failedAttempts := by
    calc (2 : ℚ) = 2 ^ 1 := (pow_one 2).symm
    _ ≤ 2 ^ rl.failedAttempts := pow_le_pow_right₀ (by norm_num) h
  have hp : 0 < (2 : ℚ) ^ rl.failedAttempts - 1 := by linarith
  have hm : 0 < min (300 : ℚ) (2 ^ rl.failedAttempts - 1) := lt_min (by norm_num) hp
  refine ⟨hm, ?_⟩
  simp only [RateLimiter.waitTime]
  rw [if_pos h]
  have hbase : (0 : ℚ) ≤
      match rl.lastRequestTimes.getLast? with
      | some t => max 0 (rl.minInterval - (now - t))
      | none => 0 := by
    cases rl.lastRequestTimes.getLast? <;> simp
  linarith

/-- C4: every chapter fetch makes at most 3 attempts; the retry sleeps are
an initial segment of `[5, 10]` (so `(attempt_index) * 5` for 1-based
indices, strictly increasing) and occur only between attempts; when all
attempts fail the outcome is the all-`None` failure after exactly 3
attempts with no third sleep, every failed attempt recorded a rate-limiter
failure (counter `lf + 3`), and the next chapter's initial rate-limiter wait
then includes a positive exponential penalty. -/
theorem fetch_retry_contract (f n : Bool) (lf : ℕ) (inputs : List AttemptInput) :
    (getChapterContentFull f n lf inputs).attemptsMade ≤ 3 ∧
    (∃ k, (getChapterContentFull f n lf inputs).retrySleeps = [5, 10].take k) ∧
    List.Chain' (· < ·) (getChapterContentFull f n lf inputs).retrySleeps ∧
    ((getChapterContentFull f n lf inputs).outcome = none →
      (getChapterContentFull f n lf inputs).attemptsMade = 3 ∧
      (getChapterContentFull f n lf inputs).retrySleeps = [5, 10] ∧
      (getChapterContentFull f n lf inputs).limiterFailures = lf + 3 ∧
      ∀ (rl : RateLimiter) (now : ℚ),
        rl.failedAttempts = (getChapterContentFull f n lf inputs).limiterFailures →
        0 < min (300 : ℚ) (2 ^ rl.failedAttempts - 1) ∧ 0 < rl.waitTime now) := by
  unfold getChapterContentFull
  rw [padTake3]
  cases ea : attemptBody f n (inputs.getD 0 .netError) with
  | ok r =>
      have ht : fetchGo f n 0 lf []
          [inputs.getD 0 .netError, inputs.getD 1 .netError, inputs.getD 2 .netError] =
          ⟨1, [], 0, some r⟩ := by
        simp only [fetchGo]
        rw [ea]
      rw [ht]
      exact ⟨by show (1 : ℕ) ≤ 3; decide, ⟨0, rfl⟩, by simp, by simp⟩
  | error m1 =>
      cases eb : attemptBody f n (inputs.getD 1 .netError) with
      | ok r =>
          have ht : fetchGo f n 0 lf []
              [inputs.getD 0 .netError, inputs.getD 1 .netError, inputs.getD 2 .netError] =
              ⟨2, [5], 0, some r⟩ := by
            simp only [fetchGo]
            rw [ea, eb]
            rfl
          rw [ht]
          exact ⟨by show (2 : ℕ) ≤ 3; decide, ⟨1, rfl⟩, by simp, by simp⟩
      | error m2 =>
          cases ec : attemptBody f n (inputs.getD 2 .netError) with
          | ok r =>
              have ht : fetchGo f n 0 lf []
                  [inputs.getD 0 .netError, inputs.getD 1 .netError, inputs.getD 2 .netError] =
                  ⟨3, [5, 10], 0, some r⟩ := by
                simp only [fetchGo]
                rw [ea, eb, ec]
                rfl
              rw [ht]
              refine ⟨by show (3 : ℕ) ≤ 3; decide, ⟨2, rfl⟩, ?_, by simp⟩
              simp [List.chain'_cons]
          | error m3 =>
              have ht : fetchGo f n 0 lf []
                  [inputs.getD 0 .netError, inputs.getD 1 .netError, inputs.getD 2 .netError] =
                  ⟨3, [5, 10], lf + 3, none⟩ := by
                simp only [fetchGo]
                rw [ea, eb, ec]
                rfl
              rw [ht]
              refine ⟨by show (3 : ℕ) ≤ 3; decide, ⟨2, rfl⟩, ?_,
                fun _ => ⟨rfl, rfl, rfl, fun rl now hrl =>
                  waitTime_pos_of_failures rl now (by simp at hrl; omega)⟩⟩
              simp [List.chain'_cons]

/-- Witness for `fetch_retry_contract` at three consecutive failures. -/
theorem fetch_retry_contract_witness :
    (getChapterContentFull true true 0
        [.netError, .netError, .netError]).limiterFailures = 0 + 3 :=
  ((fetch_retry_contract true true 0 [.netError, .netError, .netError]).2.2.2 rfl).2.2.1

/-- C3 counterexample: in the Simple variant, a first attempt classifying to
zero narrative paragraphs returns the all-`None` failure immediately after
one attempt with no retry sleep, while a transient network error in the same
position is retried and the fetch then succeeds — so a zero-narrative
attempt is NOT treated identically to a transient fetch error in both
variants. -/
theorem zero_narrative_retry_counterexample :
    getChapterContentSimple true true
        [.page (some "T") (some []), .page (some "T") (some [mainParagraph]),
          .netError] = ⟨1, [], false⟩ ∧
    (getChapterContentSimple true true
        [.netError, .page (some "T") (some [mainParagraph]),
          .netError]).succeeded = true := by
  exact ⟨rfl, rfl⟩

/-- C3 amended: in the full variant only, an attempt whose classification
yields zero narrative paragraphs is a retryable failure treated identically
to a transient fetch error: replacing one by the other anywhere in the
oracle leaves the entire fetch trace (attempt count, sleeps, rate-limiter
failures, outcome) unchanged. -/
theorem zero_narrative_retry (f n : Bool) (lf : ℕ) (pre post : List AttemptInput)
    (t : String) (ps : List Html)
    (h : (processContent f n ps).paragraphs = []) :
    getChapterContentFull f n lf
        (pre ++ AttemptInput.page (some t) (some ps) :: post) =
      getChapterContentFull f n lf (pre ++ AttemptInput.netError :: post) := by
  unfold getChapterContentFull
  apply fetchGo_congr
  apply List.forall₂_take
  apply List.rel_append
  · apply List.rel_append
    · exact List.forall₂_same.mpr (fun a _ => sameClass_refl _)
    · refine List.Forall₂.cons ?_ (List.forall₂_same.mpr (fun a _ => sameClass_refl _))
      simp [attemptBody, h, sameClass]
  · exact List.forall₂_same.mpr (fun a _ => sameClass_refl _)

/-- Witness for `zero_narrative_retry`: an empty container in the first
attempt produces the same trace as a network error there. -/
theorem zero_narrative_retry_witness :
    getChapterContentFull true true 0
        [AttemptInput.page (some "T") (some []), .netError, .netError] =
      getChapterContentFull true true 0 [.netError, .netError, .netError] :=
  zero_narrative_retry true true 0 [] [.netError, .netError] "T" [] rfl

/-- C8: with the chapter URL valid (the situation after the validation
phase), the fetch never lets a per-attempt exception escape — it always
returns an outcome rather than propagating — and the driver loop turns every
per-chapter failure into a counted skip: every chapter in the range is
processed, each either a success or a skipped failure. -/
theorem per_chapter_failures_contained (f n : Bool) (lf : ℕ)
    (inputs : List AttemptInput) (chapters : List (List AttemptInput)) :
    (∃ tr, getChapterContentTop f n true lf inputs = Except.ok tr) ∧
    (driverLoop f n lf chapters).1 + (driverLoop f n lf chapters).2.1 =
      chapters.length := by
  constructor
  · exact ⟨_, rfl⟩
  · induction chapters generalizing lf with
    | nil => rfl
    | cons ch rest ih =>
        have ih' := ih (getChapterContentFull f n lf ch).limiterFailures
        simp only [driverLoop]
        rcases hd : driverLoop f n (getChapterContentFull f n lf ch).limiterFailures rest
          with ⟨succ, fail, recs⟩
        rw [hd] at ih'
        simp only [hd]
        cases ho : (getChapterContentFull f n lf ch).outcome with
        | some r =>
            simp only [ho]
            simp at ih' ⊢
            omega
        | none =>
            simp only [ho]
            simp at ih' ⊢
            omega

end Scraper
